import Mathlib

/-!
Shallow embedding of the gravity simulator in src/main.c, together with
theorems settling the specification claims.

Modelling conventions:
- All scalar arithmetic of the C program (single and double precision floats)
  is embedded as exact rational arithmetic over the field of rationals; the
  claims under verification are stated at the exact-arithmetic level
  (the spec itself qualifies each numeric identity with "within floating
  rounding").
- Two-dimensional vectors (raylib Vector2) are pairs of rationals; the
  raymath helpers Vector2Add, Vector2Subtract, Vector2Scale and
  Vector2LengthSqr are translated literally.
- The C library square root is an uninterpreted function parameter
  (named sqrtf below); no claim depends on its values, only on the fact that
  both occurrences of the square root in a compared pair of expressions are
  the same function applied to the same argument.
- C pointer identity of array elements (the test b != o in apply_forces)
  is rendered positionally: when body number i of the registry accumulates
  forces, the source list is the registry with entry i removed; the
  trajectory preview works on a stack-local copy, whose address differs from
  every array slot, hence it accumulates forces from the whole registry.
- The float literals 1e-6f (softening) and 1./120 (fixed step) are embedded
  as the exact rationals they approximate.
-/

namespace Gravity

/-- Two dimensional vector (raylib Vector2), embedded as a pair of rationals. -/
abbrev Vec2 := ℚ × ℚ

/-- Raylib Color: four channel values. The physics core never reads them. -/
structure Color where
  r : ℕ
  g : ℕ
  b : ℕ
  a : ℕ
deriving DecidableEq

/-- Translation of raymath Vector2Add. -/
def Vector2Add (v w : Vec2) : Vec2 := (v.1 + w.1, v.2 + w.2)

/-- Translation of raymath Vector2Subtract. -/
def Vector2Subtract (v w : Vec2) : Vec2 := (v.1 - w.1, v.2 - w.2)

/-- Translation of raymath Vector2Scale. -/
def Vector2Scale (v : Vec2) (s : ℚ) : Vec2 := (v.1 * s, v.2 * s)

/-- Translation of raymath Vector2LengthSqr. -/
def Vector2LengthSqr (v : Vec2) : ℚ := v.1 * v.1 + v.2 * v.2

/-- Gravitational constant: the macro G = 30 in main.c. -/
def G : ℚ := 30

/-- The macro SIMULATION_STEPS = 120 in main.c. -/
def SIMULATION_STEPS : ℚ := 120

/-- The macro PATH_POINTS = 10000 in main.c: length of the preview path. -/
def PATH_POINTS : ℕ := 10000

/-- Fixed physics step: the global sub_dt = 1. / SIMULATION_STEPS. -/
def sub_dt : ℚ := 1 / SIMULATION_STEPS

/-- Softening constant: the literal 1e-6f inside compute_gravitational_force. -/
def epsilon : ℚ := 1 / 1000000

/-- Translation of struct CelestialBody, field for field. -/
structure Body where
  position : Vec2
  prev_position : Vec2
  force : Vec2
  prev_force : Vec2
  velocity : Vec2
  radius : ℚ
  inv_mass : ℚ
  color : Color
deriving DecidableEq

/-- Translation of create_body: the designated-initializer expression, with the
fields absent from the initializer (force, prev_force) zero initialized as C
guarantees for aggregate initialization. -/
def create_body (position velocity : Vec2) (density radius : ℚ) (color : Color) : Body :=
  { position := position
    prev_position := position
    force := (0 : Vec2)
    prev_force := (0 : Vec2)
    velocity := velocity
    radius := radius
    inv_mass := 1 / (density * radius * radius)
    color := color }

/-- Translation of integrate_pos: position Verlet half of the scheme. -/
def integrate_pos (b : Body) (dt : ℚ) : Body :=
  { b with position := Vector2Add (Vector2Add b.position (Vector2Scale b.velocity dt))
                         (Vector2Scale b.prev_force (dt * dt * b.inv_mass * (1/2))) }

/-- Translation of integrate_vel: velocity Verlet half of the scheme. -/
def integrate_vel (b : Body) (dt : ℚ) : Body :=
  { b with velocity := Vector2Add b.velocity
                         (Vector2Scale (Vector2Add b.prev_force b.force)
                           (dt * (1/2) * b.inv_mass)) }

/-- Translation of compute_gravitational_force, with the library square root
kept abstract as the parameter sqrtf. -/
def compute_gravitational_force (sqrtf : ℚ → ℚ) (b1 b2 : Body) : Vec2 :=
  let r := Vector2Subtract b2.position b1.position
  let r2 := max (Vector2LengthSqr r) epsilon
  let rn := Vector2Scale r (1 / sqrtf r2)
  let m1 := 1 / b1.inv_mass
  let m2 := 1 / b2.inv_mass
  Vector2Scale rn (G * (m1 * m2) / r2)

/-- Translation of apply_forces: fold the loop body over the list of bodies the
pointer test b != o lets through (see the pointer-identity convention in the
file header); the dt parameter is unused, exactly as in the C source. -/
def apply_forces (sqrtf : ℚ → ℚ) (b : Body) (others : List Body) (_dt : ℚ) : Body :=
  { b with force := others.foldl
                      (fun acc o => Vector2Add acc (compute_gravitational_force sqrtf b o))
                      b.force }

/-- Force pass of update: walk the registry with its running index, letting
entry i accumulate forces from every entry other than i, all positions being
read from the immutable snapshot taken at the start of the walk (the C loop
mutates only force fields, which compute_gravitational_force never reads). -/
def applyFrom (sqrtf : ℚ → ℚ) (all : List Body) (dt : ℚ) : ℕ → List Body → List Body
  | _, [] => []
  | i, b :: rest => apply_forces sqrtf b (all.eraseIdx i) dt :: applyFrom sqrtf all dt (i + 1) rest

/-- Translation of update: the four loops of the C function in order (reset
and bookkeeping, position integration, force accumulation, velocity
integration). -/
def update (sqrtf : ℚ → ℚ) (bs : List Body) (dt : ℚ) : List Body :=
  let bs0 := bs.map fun b =>
    { b with prev_position := b.position, prev_force := b.force, force := (0 : Vec2) }
  let bs1 := bs0.map fun b => integrate_pos b dt
  let bs2 := applyFrom sqrtf bs1 dt 0 bs1
  bs2.map fun b => integrate_vel b dt

/-- One iteration of the preview loop in spawn_body: rotate the force
bookkeeping, integrate the position, accumulate forces from the whole registry
(the candidate is a stack local, so the pointer test never skips a body), and
integrate the velocity, all with the fixed step sub_dt. -/
def predictStep (sqrtf : ℚ → ℚ) (sources : List Body) (b : Body) : Body :=
  let b1 := { b with prev_force := b.force, force := (0 : Vec2) }
  let b2 := integrate_pos b1 sub_dt
  let b3 := apply_forces sqrtf b2 sources sub_dt
  integrate_vel b3 sub_dt

/-- Closed form of the position produced by the position half of a preview
iteration: the candidate enters the iteration carrying last iteration's
accumulated force in its force field, which the iteration first moves into
prev_force, so integrate_pos reads it from there. -/
def newPos (b : Body) : Vec2 :=
  Vector2Add (Vector2Add b.position (Vector2Scale b.velocity sub_dt))
    (Vector2Scale b.force (sub_dt * sub_dt * b.inv_mass * (1/2)))

/-- The candidate as apply_forces sees it inside a preview iteration: force
rotated into prev_force and cleared, position already advanced. -/
def stepBody (b : Body) : Body :=
  { b with prev_force := b.force, force := (0 : Vec2), position := newPos b }

/-- Closed form of the force a preview iteration accumulates on the candidate
from the registry snapshot. -/
def newForce (sqrtf : ℚ → ℚ) (sources : List Body) (b : Body) : Vec2 :=
  sources.foldl
    (fun acc o => Vector2Add acc (compute_gravitational_force sqrtf (stepBody b) o))
    (0 : Vec2)

/-- Closed form of the velocity produced by a preview iteration. -/
def newVel (sqrtf : ℚ → ℚ) (sources : List Body) (b : Body) : Vec2 :=
  Vector2Add b.velocity
    (Vector2Scale (Vector2Add b.force (newForce sqrtf sources b))
      (sub_dt * (1/2) * b.inv_mass))

/-- Positions recorded by the preview loop of spawn_body: point number k is the
position of the candidate after k+1 iterations of predictStep; the registry
passed as sources is threaded through unchanged. -/
def predictPath (sqrtf : ℚ → ℚ) (sources : List Body) (b : Body) : ℕ → List Vec2
  | 0 => []
  | n + 1 =>
    let b1 := predictStep sqrtf sources b
    b1.position :: predictPath sqrtf sources b1 n

/-- Result of the fixed-step while loop of main: final registry, final
accumulator, and the number of update calls executed. -/
structure LoopOut where
  bodies : List Body
  acc : ℚ
  steps : ℕ
deriving DecidableEq

/-- Translation of the while loop of main: while acc is at least sub_dt, run
one update with step sub_dt and subtract sub_dt from acc; steps counts the
iterations. -/
def stepLoop (sqrtf : ℚ → ℚ) (bs : List Body) (acc : ℚ) : LoopOut :=
  if h : sub_dt ≤ acc then
    let r := stepLoop sqrtf (update sqrtf bs sub_dt) (acc - sub_dt)
    ⟨r.bodies, r.acc, r.steps + 1⟩
  else
    ⟨bs, acc, 0⟩
termination_by (⌊acc / sub_dt⌋).toNat
decreasing_by
  have hs : (0:ℚ) < sub_dt := by norm_num [sub_dt, SIMULATION_STEPS]
  have h1 : (acc - sub_dt) / sub_dt = acc / sub_dt - 1 := by field_simp
  have h2 : (1:ℚ) ≤ acc / sub_dt := (one_le_div hs).2 h
  have h3 : (1:ℤ) ≤ ⌊acc / sub_dt⌋ := Int.le_floor.2 (by exact_mod_cast h2)
  rw [h1, Int.floor_sub_one]
  omega

/-- Result of one frame of the main loop: the registry and accumulator carried
to the next frame, the interpolation fraction handed to draw, and the number
of physics steps executed this frame. -/
structure FrameOut where
  bodies : List Body
  acc : ℚ
  alpha : ℚ
  steps : ℕ
deriving DecidableEq

/-- Translation of the per-frame scheduler code in main: add the frame
duration to the accumulator; when the frame duration is nonzero run the
fixed-step loop and divide the remaining accumulator by sub_dt, otherwise
leave alpha at its initialization value zero and run nothing. -/
def advance (sqrtf : ℚ → ℚ) (bs : List Body) (acc dt : ℚ) : FrameOut :=
  let acc1 := acc + dt
  if dt ≠ 0 then
    let r := stepLoop sqrtf bs acc1
    ⟨r.bodies, r.acc, r.acc / sub_dt, r.steps⟩
  else
    ⟨bs, acc1, 0, 0⟩

/-- Fold advance over a list of frame durations, starting from a given
registry and accumulator, and count the total number of physics steps. -/
def advanceAll (sqrtf : ℚ → ℚ) (bs : List Body) (acc : ℚ) : List ℚ → List Body × ℚ × ℕ
  | [] => (bs, acc, 0)
  | d :: ds =>
    let r := advance sqrtf bs acc d
    let rest := advanceAll sqrtf r.bodies r.acc ds
    (rest.1, rest.2.1, r.steps + rest.2.2)

/-- Translation of vec_push_back on the registry: append one body at the end.
This is the whole of the add operation in the program: it is unconditional. -/
def addBody (bs : List Body) (b : Body) : List Body := bs ++ [b]

/-- Inputs read by spawn_body in one frame: the three mouse-button predicates,
the mouse position, and the random draws (color channels and the two uniform
draws that the density and radius clamps consume). -/
structure SpawnInput where
  pressed : Bool
  released : Bool
  down : Bool
  mousePos : Vec2
  col : Color
  u1 : ℚ
  u2 : ℚ

/-- The mutable globals spawn_body touches. -/
structure SimState where
  bodies : List Body
  mouse_pressed_pos : Vec2
  spawned_body : Body
  spawn_path : List Vec2
  show_spawn_path : Bool

/-- Translation of spawn_body: the three conditional blocks in source order.
On press, record the press position and build the candidate with the clamped
random density and radius; on release, finalize the candidate velocity and
push the candidate onto the registry; while the button is down, recompute the
preview path from a local copy of the candidate. -/
def spawn_body (sqrtf : ℚ → ℚ) (inp : SpawnInput) (st : SimState) : SimState :=
  let st1 :=
    if inp.pressed then
      { st with
        show_spawn_path := true
        mouse_pressed_pos := inp.mousePos
        spawned_body :=
          create_body inp.mousePos (Vector2Subtract inp.mousePos inp.mousePos)
            (max (inp.u1 * 20) 1) (max (inp.u2 * 60) 20) inp.col }
    else st
  let st2 :=
    if inp.released then
      let committed := { st1.spawned_body with
        velocity := Vector2Subtract inp.mousePos st1.mouse_pressed_pos }
      { st1 with
        show_spawn_path := false
        spawned_body := committed
        bodies := addBody st1.bodies committed }
    else st1
  if inp.down then
    let b := { st2.spawned_body with
      velocity := Vector2Subtract inp.mousePos st2.mouse_pressed_pos }
    { st2 with spawn_path := predictPath sqrtf st2.bodies b PATH_POINTS }
  else st2

/-- Transcription of the force formula of the specification, section 4.2:
with r the vector from body A to body B and r2 the squared length of r
softened from below by epsilon, the force on A is the magnitude G times mA
times mB over r2, applied in the unit direction r divided by the square root
of r2. Stated over given masses and positions, to be compared with
compute_gravitational_force. -/
def specGravityForce (sqrtf : ℚ → ℚ) (posA posB : Vec2) (mA mB : ℚ) : Vec2 :=
  let r := posB - posA
  let r2 := max (Vector2LengthSqr r) epsilon
  (G * mA * mB / r2) • ((1 / sqrtf r2) • r)

/-- State correspondence between the code and the step description of the
specification, section 4.3: the specification has each step end by moving the
freshly accumulated force into previousForce and clearing accumulatedForce,
while the code performs exactly that rotation at the top of the following
update call; so a code state is read as a specification state by performing
the pending rotation. -/
def toSpec (b : Body) : Body :=
  { b with prev_force := b.force, force := (0 : Vec2) }

/-- Force recomputation pass as the specification phrases it for phase two of
the integrator contract: each body's accumulated force is set to the sum of
the pairwise forces against every other body, at the already updated
positions. -/
def specForcePass (sqrtf : ℚ → ℚ) (all : List Body) : ℕ → List Body → List Body
  | _, [] => []
  | i, b :: rest =>
    { b with force := ((all.eraseIdx i).map
                        fun o => compute_gravitational_force sqrtf b o).sum }
      :: specForcePass sqrtf all (i + 1) rest

/-- Transcription of the two-phase velocity Verlet contract of the
specification, section 4.3 (also the text of claim C1): record
previousPosition, then position gains velocity times dt plus half of
previousForce times inverseMass times dt squared; forces are recomputed at
the new positions; then velocity gains half of the sum of previousForce and
accumulatedForce times inverseMass times dt, previousForce takes the
accumulated value and accumulatedForce is cleared. -/
def verletSpecStep (sqrtf : ℚ → ℚ) (bs : List Body) (dt : ℚ) : List Body :=
  let bs1 := bs.map fun b =>
    { b with
      prev_position := b.position
      position := b.position + dt • b.velocity + ((1/2) * b.inv_mass * dt ^ 2) • b.prev_force }
  let bs2 := specForcePass sqrtf bs1 0 bs1
  bs2.map fun b =>
    { b with
      velocity := b.velocity + ((1/2) * b.inv_mass * dt) • (b.prev_force + b.force)
      prev_force := b.force
      force := (0 : Vec2) }

/-- Total momentum of the registry: the sum over the bodies of mass times
velocity, the mass being the reciprocal of inv_mass as in print_energy. -/
def momentum (bs : List Body) : Vec2 :=
  (bs.map fun b => (1 / b.inv_mass) • b.velocity).sum

/-- Sum of the force fields of the registry. -/
def sumForce (bs : List Body) : Vec2 := (bs.map fun b => b.force).sum

/-- Sum of the previous-force fields of the registry. -/
def sumPrevForce (bs : List Body) : Vec2 := (bs.map fun b => b.prev_force).sum

/-- Total gravitational force one body receives from a list of sources. -/
def total_force (sqrtf : ℚ → ℚ) (b : Body) (srcs : List Body) : Vec2 :=
  (srcs.map fun o => compute_gravitational_force sqrtf b o).sum

/-- Running sum of the pairwise forces the force pass of update distributes:
walking the remaining bodies with their index, each contributes the total
force it receives from every other entry of the registry snapshot. -/
def pairAux (sqrtf : ℚ → ℚ) (all : List Body) : ℕ → List Body → Vec2
  | _, [] => (0 : Vec2)
  | i, b :: rest => total_force sqrtf b (all.eraseIdx i) + pairAux sqrtf all (i + 1) rest

theorem Vector2Add_eq (v w : Vec2) : Vector2Add v w = v + w := rfl

theorem Vector2Subtract_eq (v w : Vec2) : Vector2Subtract v w = v - w := rfl

theorem Vector2Scale_eq (v : Vec2) (s : ℚ) : Vector2Scale v s = s • v := by
  cases v
  simp [Vector2Scale, Prod.smul_mk, smul_eq_mul, mul_comm]

theorem sub_dt_pos : (0:ℚ) < sub_dt := by norm_num [sub_dt, SIMULATION_STEPS]

theorem epsilon_pos : (0:ℚ) < epsilon := by norm_num [epsilon]

/-- Newton's third law for the embedded force function, for arbitrary bodies
and an arbitrary square root function: swapping the arguments negates the
result, because the separation vector flips sign while its squared length,
the softened denominator and the mass product are unchanged. -/
theorem gravitational_force_antisymm (sqrtf : ℚ → ℚ) (b1 b2 : Body) :
    compute_gravitational_force sqrtf b1 b2 = - compute_gravitational_force sqrtf b2 b1 := by
  have hsym : (b1.position.1 - b2.position.1) * (b1.position.1 - b2.position.1) +
        (b1.position.2 - b2.position.2) * (b1.position.2 - b2.position.2)
      = (b2.position.1 - b1.position.1) * (b2.position.1 - b1.position.1) +
        (b2.position.2 - b1.position.2) * (b2.position.2 - b1.position.2) := by ring
  simp only [compute_gravitational_force, Vector2Subtract, Vector2Scale, Vector2LengthSqr,
    Prod.neg_mk, Prod.mk.injEq]
  rw [hsym]
  constructor <;> ring

/-- C4: for every pair of bodies at any positions, the force on the first due
to the second is exactly the negation of the force on the second due to the
first, so the two contributions of an unordered pair cancel exactly. -/
theorem claim4_newton_third_law (sqrtf : ℚ → ℚ) (b1 b2 : Body) :
    compute_gravitational_force sqrtf b1 b2 = - compute_gravitational_force sqrtf b2 b1 ∧
    compute_gravitational_force sqrtf b1 b2 + compute_gravitational_force sqrtf b2 b1 = 0 := by
  refine ⟨gravitational_force_antisymm sqrtf b1 b2, ?_⟩
  rw [gravitational_force_antisymm sqrtf b1 b2]
  simp

/-- C3: for bodies built by create_body from positive densities and radii, the
inverse mass is fixed at creation as the reciprocal of density times radius
squared, the softened squared separation is positive even at zero separation,
and the computed force equals the specification formula: magnitude G times mA
times mB over r2, in the unit direction r over the square root of r2, with
each mass recovered as density times radius squared. -/
theorem claim3_force_formula (sqrtf : ℚ → ℚ) (pA vA pB vB : Vec2) (dA rA dB rB : ℚ)
    (cA cB : Color) (hdA : 0 < dA) (hrA : 0 < rA) (hdB : 0 < dB) (hrB : 0 < rB) :
    (create_body pA vA dA rA cA).inv_mass = 1 / (dA * rA * rA) ∧
    0 < max (Vector2LengthSqr (Vector2Subtract pB pA)) epsilon ∧
    compute_gravitational_force sqrtf (create_body pA vA dA rA cA)
        (create_body pB vB dB rB cB)
      = specGravityForce sqrtf pA pB (dA * rA * rA) (dB * rB * rB) := by
  refine ⟨rfl, lt_of_lt_of_le epsilon_pos (le_max_right _ _), ?_⟩
  simp only [compute_gravitational_force, specGravityForce, create_body,
    Vector2Subtract_eq, Vector2Scale_eq, one_div_one_div]
  rw [smul_smul, smul_smul]
  congr 1
  ring

/-- Witness for C3 at the concrete two-body scenario of the specification,
section 8, with the identity as the square root stand-in. -/
theorem claim3_force_formula_witness :
    (0:ℚ) < 100 ∧ (0:ℚ) < 1 ∧ (0:ℚ) < 30 ∧
    compute_gravitational_force (fun q => q)
        (create_body ((0:ℚ), (0:ℚ)) ((0:ℚ), (0:ℚ)) 100 100 ⟨255, 161, 0, 255⟩)
        (create_body ((500:ℚ), (0:ℚ)) ((0:ℚ), (180:ℚ)) 1 30 ⟨0, 121, 241, 255⟩)
      = specGravityForce (fun q => q) ((0:ℚ), (0:ℚ)) ((500:ℚ), (0:ℚ))
          (100 * 100 * 100) (1 * 30 * 30) :=
  ⟨by decide, by decide, by decide,
    (claim3_force_formula (fun q => q) ((0:ℚ), (0:ℚ)) ((0:ℚ), (0:ℚ)) ((500:ℚ), (0:ℚ))
      ((0:ℚ), (180:ℚ)) 100 100 1 30 ⟨255, 161, 0, 255⟩ ⟨0, 121, 241, 255⟩
      (by decide) (by decide) (by decide) (by decide)).2.2⟩

/-- Counterexample to C5: the add operation of the program, vec_push_back,
performs no validation; adding a body of density minus one and radius one to
the empty registry succeeds and changes the registry, and the invalid body
enters it. -/
theorem claim5_counterexample :
    addBody [] (create_body ((0:ℚ), (0:ℚ)) ((0:ℚ), (0:ℚ)) (-1) 1 ⟨0, 0, 0, 255⟩)
      = [create_body ((0:ℚ), (0:ℚ)) ((0:ℚ), (0:ℚ)) (-1) 1 ⟨0, 0, 0, 255⟩] ∧
    addBody [] (create_body ((0:ℚ), (0:ℚ)) ((0:ℚ), (0:ℚ)) (-1) 1 ⟨0, 0, 0, 255⟩) ≠ [] := by
  exact ⟨rfl, by decide⟩

/-- C5 as amended: the registry append never fails and appends
unconditionally, with no validation and no error value anywhere in the
program; non-positive densities and radii are kept out of the spawn path only
by the clamps in spawn_body, which force the random density to at least one
and the random radius to at least twenty, both positive, whatever the uniform
draws are. -/
theorem claim5_add_unconditional (bs : List Body) (p v : Vec2) (c : Color) (u1 u2 : ℚ) :
    addBody bs (create_body p v (max (u1 * 20) 1) (max (u2 * 60) 20) c)
      = bs ++ [create_body p v (max (u1 * 20) 1) (max (u2 * 60) 20) c] ∧
    (1:ℚ) ≤ max (u1 * 20) 1 ∧ (20:ℚ) ≤ max (u2 * 60) 20 ∧
    (0:ℚ) < max (u1 * 20) 1 ∧ (0:ℚ) < max (u2 * 60) 20 := by
  refine ⟨rfl, le_max_right _ _, le_max_right _ _, ?_, ?_⟩ <;>
    exact lt_of_lt_of_le (by norm_num) (le_max_right _ _)

theorem stepLoop_of_lt (sqrtf : ℚ → ℚ) (bs : List Body) (acc : ℚ) (h : acc < sub_dt) :
    stepLoop sqrtf bs acc = ⟨bs, acc, 0⟩ := by
  unfold stepLoop
  rw [dif_neg (not_le.2 h)]

theorem stepLoop_of_ge (sqrtf : ℚ → ℚ) (bs : List Body) (acc : ℚ) (h : sub_dt ≤ acc) :
    stepLoop sqrtf bs acc =
      ⟨(stepLoop sqrtf (update sqrtf bs sub_dt) (acc - sub_dt)).bodies,
       (stepLoop sqrtf (update sqrtf bs sub_dt) (acc - sub_dt)).acc,
       (stepLoop sqrtf (update sqrtf bs sub_dt) (acc - sub_dt)).steps + 1⟩ := by
  conv_lhs => unfold stepLoop
  rw [dif_pos h]

theorem stepLoop_spec_of_lt (sqrtf : ℚ → ℚ) (bs : List Body) (acc : ℚ) (h : acc < sub_dt) :
    (stepLoop sqrtf bs acc).acc = acc - (stepLoop sqrtf bs acc).steps * sub_dt ∧
    (stepLoop sqrtf bs acc).bodies
      = (fun l => update sqrtf l sub_dt)^[(stepLoop sqrtf bs acc).steps] bs ∧
    (stepLoop sqrtf bs acc).acc < sub_dt ∧
    (0 ≤ acc → 0 ≤ (stepLoop sqrtf bs acc).acc) := by
  rw [stepLoop_of_lt sqrtf bs acc h]
  exact ⟨by simp, by simp, h, fun h0 => h0⟩

theorem stepLoop_acc_of_ge (sqrtf : ℚ → ℚ) (bs : List Body) (acc : ℚ) (h : sub_dt ≤ acc) :
    (stepLoop sqrtf bs acc).acc
      = (stepLoop sqrtf (update sqrtf bs sub_dt) (acc - sub_dt)).acc := by
  rw [stepLoop_of_ge sqrtf bs acc h]

theorem stepLoop_bodies_of_ge (sqrtf : ℚ → ℚ) (bs : List Body) (acc : ℚ) (h : sub_dt ≤ acc) :
    (stepLoop sqrtf bs acc).bodies
      = (stepLoop sqrtf (update sqrtf bs sub_dt) (acc - sub_dt)).bodies := by
  rw [stepLoop_of_ge sqrtf bs acc h]

theorem stepLoop_steps_of_ge (sqrtf : ℚ → ℚ) (bs : List Body) (acc : ℚ) (h : sub_dt ≤ acc) :
    (stepLoop sqrtf bs acc).steps
      = (stepLoop sqrtf (update sqrtf bs sub_dt) (acc - sub_dt)).steps + 1 := by
  rw [stepLoop_of_ge sqrtf bs acc h]

theorem stepLoop_spec_aux (sqrtf : ℚ → ℚ) :
    ∀ (k : ℕ) (bs : List Body) (acc : ℚ), (⌊acc / sub_dt⌋).toNat ≤ k →
    (stepLoop sqrtf bs acc).acc = acc - (stepLoop sqrtf bs acc).steps * sub_dt ∧
    (stepLoop sqrtf bs acc).bodies
      = (fun l => update sqrtf l sub_dt)^[(stepLoop sqrtf bs acc).steps] bs ∧
    (stepLoop sqrtf bs acc).acc < sub_dt ∧
    (0 ≤ acc → 0 ≤ (stepLoop sqrtf bs acc).acc) := by
  intro k
  induction k with
  | zero =>
    intro bs acc hk
    have h1 : ⌊acc / sub_dt⌋ < (1:ℤ) := by omega
    have h2 : acc / sub_dt < 1 := by exact_mod_cast Int.floor_lt.1 (by exact_mod_cast h1)
    exact stepLoop_spec_of_lt sqrtf bs acc ((div_lt_one sub_dt_pos).1 h2)
  | succ k ih =>
    intro bs acc hk
    by_cases h : sub_dt ≤ acc
    · have hdrop : (⌊(acc - sub_dt) / sub_dt⌋).toNat ≤ k := by
        have h1 : (acc - sub_dt) / sub_dt = acc / sub_dt - 1 := by
          rw [sub_div, div_self (ne_of_gt sub_dt_pos)]
        rw [h1, Int.floor_sub_one]
        omega
      obtain ⟨ha, hb, hlt, hnn⟩ := ih (update sqrtf bs sub_dt) (acc - sub_dt) hdrop
      refine ⟨?_, ?_, ?_, fun _ => ?_⟩
      · rw [stepLoop_acc_of_ge sqrtf bs acc h, stepLoop_steps_of_ge sqrtf bs acc h, ha]
        push_cast
        ring
      · rw [stepLoop_bodies_of_ge sqrtf bs acc h, stepLoop_steps_of_ge sqrtf bs acc h, hb,
          Function.iterate_succ_apply]
      · rw [stepLoop_acc_of_ge sqrtf bs acc h]
        exact hlt
      · rw [stepLoop_acc_of_ge sqrtf bs acc h]
        exact hnn (by linarith)
    · exact stepLoop_spec_of_lt sqrtf bs acc (not_le.1 h)

theorem stepLoop_spec (sqrtf : ℚ → ℚ) (bs : List Body) (acc : ℚ) :
    (stepLoop sqrtf bs acc).acc = acc - (stepLoop sqrtf bs acc).steps * sub_dt ∧
    (stepLoop sqrtf bs acc).bodies
      = (fun l => update sqrtf l sub_dt)^[(stepLoop sqrtf bs acc).steps] bs ∧
    (stepLoop sqrtf bs acc).acc < sub_dt ∧
    (0 ≤ acc → 0 ≤ (stepLoop sqrtf bs acc).acc) :=
  stepLoop_spec_aux sqrtf (⌊acc / sub_dt⌋).toNat bs acc le_rfl

theorem advance_alpha_of_ne (sqrtf : ℚ → ℚ) (bs : List Body) (acc dt : ℚ) (hdt0 : dt ≠ 0) :
    (advance sqrtf bs acc dt).alpha = (stepLoop sqrtf bs (acc + dt)).acc / sub_dt := by
  simp [advance, hdt0]

theorem advance_acc_of_ne (sqrtf : ℚ → ℚ) (bs : List Body) (acc dt : ℚ) (hdt0 : dt ≠ 0) :
    (advance sqrtf bs acc dt).acc = (stepLoop sqrtf bs (acc + dt)).acc := by
  simp [advance, hdt0]

theorem advance_bodies_of_ne (sqrtf : ℚ → ℚ) (bs : List Body) (acc dt : ℚ) (hdt0 : dt ≠ 0) :
    (advance sqrtf bs acc dt).bodies = (stepLoop sqrtf bs (acc + dt)).bodies := by
  simp [advance, hdt0]

theorem advance_steps_of_ne (sqrtf : ℚ → ℚ) (bs : List Body) (acc dt : ℚ) (hdt0 : dt ≠ 0) :
    (advance sqrtf bs acc dt).steps = (stepLoop sqrtf bs (acc + dt)).steps := by
  simp [advance, hdt0]

/-- C2: under the scheduler invariant that the entering accumulator lies in
the interval from zero inclusive to sub_dt exclusive (true of the initial
value zero and reestablished by every frame, as the conclusion shows), a
frame with nonnegative reported duration adds the duration to the
accumulator, runs one full update step of size sub_dt while the accumulator
is at least sub_dt, subtracting sub_dt each time, and returns an
interpolation fraction equal to the remaining accumulator divided by sub_dt,
lying in the interval from zero inclusive to one exclusive; when the reported
duration is zero, no step runs and the returned fraction is zero. -/
theorem claim2_scheduler_frame (sqrtf : ℚ → ℚ) (bs : List Body) (acc dt : ℚ)
    (hacc0 : 0 ≤ acc) (haccs : acc < sub_dt) (hdt : 0 ≤ dt) :
    0 ≤ (advance sqrtf bs acc dt).alpha ∧ (advance sqrtf bs acc dt).alpha < 1 ∧
    (advance sqrtf bs acc dt).acc = acc + dt - (advance sqrtf bs acc dt).steps * sub_dt ∧
    0 ≤ (advance sqrtf bs acc dt).acc ∧ (advance sqrtf bs acc dt).acc < sub_dt ∧
    (advance sqrtf bs acc dt).bodies
      = (fun l => update sqrtf l sub_dt)^[(advance sqrtf bs acc dt).steps] bs ∧
    (dt ≠ 0 → (advance sqrtf bs acc dt).alpha = (advance sqrtf bs acc dt).acc / sub_dt) ∧
    (dt = 0 → (advance sqrtf bs acc dt).steps = 0 ∧ (advance sqrtf bs acc dt).bodies = bs ∧
      (advance sqrtf bs acc dt).alpha = 0) := by
  by_cases hdt0 : dt = 0
  · subst hdt0
    have hav : advance sqrtf bs acc 0 = ⟨bs, acc + 0, 0, 0⟩ := by
      simp [advance]
    rw [hav]
    refine ⟨le_rfl, by norm_num, by push_cast; ring, by simpa using hacc0,
      by simpa using haccs, by simp, fun hc => absurd rfl hc, fun _ => ⟨rfl, rfl, rfl⟩⟩
  · obtain ⟨ha, hb, hlt, hnn⟩ := stepLoop_spec sqrtf bs (acc + dt)
    have hnn' : 0 ≤ (stepLoop sqrtf bs (acc + dt)).acc := hnn (by linarith)
    rw [advance_alpha_of_ne sqrtf bs acc dt hdt0, advance_acc_of_ne sqrtf bs acc dt hdt0,
      advance_bodies_of_ne sqrtf bs acc dt hdt0, advance_steps_of_ne sqrtf bs acc dt hdt0]
    exact ⟨div_nonneg hnn' sub_dt_pos.le, (div_lt_one sub_dt_pos).2 hlt, ha, hnn', hlt,
      hb, fun _ => rfl, fun hc => absurd hc hdt0⟩

/-- Witness for C2: one frame of one second from a fresh scheduler state. -/
theorem claim2_scheduler_frame_witness :
    (0:ℚ) ≤ 0 ∧ (0:ℚ) < sub_dt ∧ (0:ℚ) ≤ 1 ∧
    0 ≤ (advance (fun q => q) [] 0 1).alpha ∧
    (advance (fun q => q) [] 0 1).alpha < 1 :=
  ⟨le_rfl, sub_dt_pos, by decide,
    (claim2_scheduler_frame (fun q => q) [] 0 1 le_rfl sub_dt_pos (by decide)).1,
    (claim2_scheduler_frame (fun q => q) [] 0 1 le_rfl sub_dt_pos (by decide)).2.1⟩

theorem advance_count (sqrtf : ℚ → ℚ) (bs : List Body) (acc dt : ℚ) :
    ((advance sqrtf bs acc dt).steps : ℚ) * sub_dt + (advance sqrtf bs acc dt).acc
      = acc + dt := by
  by_cases hdt0 : dt = 0
  · subst hdt0
    simp [advance]
  · obtain ⟨ha, _, _, _⟩ := stepLoop_spec sqrtf bs (acc + dt)
    simp only [advance, if_pos hdt0]
    rw [ha]
    ring

theorem advanceAll_count (sqrtf : ℚ → ℚ) :
    ∀ (dts : List ℚ) (bs : List Body) (acc : ℚ),
    ((advanceAll sqrtf bs acc dts).2.2 : ℚ) * sub_dt + (advanceAll sqrtf bs acc dts).2.1
      = acc + dts.sum := by
  intro dts
  induction dts with
  | nil => intro bs acc; simp [advanceAll]
  | cons d ds ih =>
    intro bs acc
    simp only [advanceAll, List.sum_cons]
    have h1 := advance_count sqrtf bs acc d
    have h2 := ih (advance sqrtf bs acc d).bodies (advance sqrtf bs acc d).acc
    push_cast
    push_cast at h2
    linarith

/-- C8: for every sequence of frame durations, all nonnegative, fed to the
scheduler starting from the initial accumulator zero, the total number of
executed fixed steps times sub_dt plus the final accumulator equals the sum
of the durations, exactly in rational arithmetic, independently of how the
total is split across the frames. -/
theorem claim8_accumulator_conservation (sqrtf : ℚ → ℚ) (bs : List Body) (dts : List ℚ)
    (hdts : ∀ d ∈ dts, 0 ≤ d) :
    ((advanceAll sqrtf bs 0 dts).2.2 : ℚ) * sub_dt + (advanceAll sqrtf bs 0 dts).2.1
      = dts.sum := by
  simpa using advanceAll_count sqrtf dts bs 0

/-- Witness for C8: three frames of one second, zero seconds and two seconds. -/
theorem claim8_accumulator_conservation_witness :
    (∀ d ∈ [(1:ℚ), 0, 2], 0 ≤ d) ∧
    ((advanceAll (fun q => q) [] 0 [(1:ℚ), 0, 2]).2.2 : ℚ) * sub_dt
        + (advanceAll (fun q => q) [] 0 [(1:ℚ), 0, 2]).2.1
      = ([(1:ℚ), 0, 2]).sum :=
  ⟨by decide,
    claim8_accumulator_conservation (fun q => q) [] [(1:ℚ), 0, 2] (by decide)⟩

theorem predictStep_eq (sqrtf : ℚ → ℚ) (sources : List Body) (b : Body) :
    predictStep sqrtf sources b =
      { b with
        prev_force := b.force
        position := newPos b
        force := newForce sqrtf sources b
        velocity := newVel sqrtf sources b } := rfl

theorem predictPath_length (sqrtf : ℚ → ℚ) (sources : List Body) :
    ∀ (n : ℕ) (b : Body), (predictPath sqrtf sources b n).length = n := by
  intro n
  induction n with
  | zero => intro b; rfl
  | succ n ih => intro b; simp [predictPath, ih]

theorem foldl_cgf_body (sqrtf : ℚ → ℚ) (c1 c2 : Body) (hp : c1.position = c2.position)
    (hm : c1.inv_mass = c2.inv_mass) :
    ∀ (l : List Body) (a : Vec2),
      l.foldl (fun acc o => Vector2Add acc (compute_gravitational_force sqrtf c1 o)) a
        = l.foldl (fun acc o => Vector2Add acc (compute_gravitational_force sqrtf c2 o)) a := by
  intro l
  induction l with
  | nil => intro a; rfl
  | cons x xs ih =>
    intro a
    simp only [List.foldl_cons]
    rw [show compute_gravitational_force sqrtf c1 x = compute_gravitational_force sqrtf c2 x from
      by simp only [compute_gravitational_force, hp, hm]]
    exact ih _

theorem newPos_congr {b1 b2 : Body} (hp : b1.position = b2.position)
    (hv : b1.velocity = b2.velocity) (hm : b1.inv_mass = b2.inv_mass)
    (hf : b1.force = b2.force) : newPos b1 = newPos b2 := by
  simp only [newPos, hp, hv, hm, hf]

theorem newForce_congr (sqrtf : ℚ → ℚ) (sources : List Body) {b1 b2 : Body}
    (hp : b1.position = b2.position) (hv : b1.velocity = b2.velocity)
    (hm : b1.inv_mass = b2.inv_mass) (hf : b1.force = b2.force) :
    newForce sqrtf sources b1 = newForce sqrtf sources b2 := by
  unfold newForce
  exact foldl_cgf_body sqrtf (stepBody b1) (stepBody b2)
    (newPos_congr hp hv hm hf) hm sources 0

theorem newVel_congr (sqrtf : ℚ → ℚ) (sources : List Body) {b1 b2 : Body}
    (hp : b1.position = b2.position) (hv : b1.velocity = b2.velocity)
    (hm : b1.inv_mass = b2.inv_mass) (hf : b1.force = b2.force) :
    newVel sqrtf sources b1 = newVel sqrtf sources b2 := by
  simp only [newVel, hv, hm, hf, newForce_congr sqrtf sources hp hv hm hf]

theorem predictStep_congr (sqrtf : ℚ → ℚ) (sources : List Body) {b1 b2 : Body}
    (hp : b1.position = b2.position) (hv : b1.velocity = b2.velocity)
    (hm : b1.inv_mass = b2.inv_mass) (hf : b1.force = b2.force) :
    (predictStep sqrtf sources b1).position = (predictStep sqrtf sources b2).position ∧
    (predictStep sqrtf sources b1).velocity = (predictStep sqrtf sources b2).velocity ∧
    (predictStep sqrtf sources b1).inv_mass = (predictStep sqrtf sources b2).inv_mass ∧
    (predictStep sqrtf sources b1).force = (predictStep sqrtf sources b2).force := by
  rw [predictStep_eq sqrtf sources b1, predictStep_eq sqrtf sources b2]
  exact ⟨newPos_congr hp hv hm hf, newVel_congr sqrtf sources hp hv hm hf, hm,
    newForce_congr sqrtf sources hp hv hm hf⟩

theorem predictPath_congr (sqrtf : ℚ → ℚ) (sources : List Body) :
    ∀ (n : ℕ) (b1 b2 : Body), b1.position = b2.position → b1.velocity = b2.velocity →
      b1.inv_mass = b2.inv_mass → b1.force = b2.force →
      predictPath sqrtf sources b1 n = predictPath sqrtf sources b2 n := by
  intro n
  induction n with
  | zero => intro b1 b2 _ _ _ _; rfl
  | succ n ih =>
    intro b1 b2 hp hv hm hf
    obtain ⟨gp, gv, gm, gf⟩ := predictStep_congr sqrtf sources hp hv hm hf
    simp only [predictPath]
    rw [gp, ih (predictStep sqrtf sources b1) (predictStep sqrtf sources b2) gp gv gm gf]

/-- C7: the trajectory predictor is a pure, deterministic function of the
candidate body and the registry snapshot: two candidates that agree on
position, velocity, inverse mass and carried accumulated force (candidates
built by create_body always carry accumulated force zero), run against the
same registry, give the same predicted sequence, whatever their render-only
fields (radius, color), previous position and previous force are; in
particular two runs with a fully identical candidate and registry give
identical sequences. -/
theorem claim7_predictor_purity (sqrtf : ℚ → ℚ) (sources : List Body) (n : ℕ) (b1 b2 : Body)
    (hp : b1.position = b2.position) (hv : b1.velocity = b2.velocity)
    (hm : b1.inv_mass = b2.inv_mass) (hf : b1.force = b2.force) :
    predictPath sqrtf sources b1 n = predictPath sqrtf sources b2 n :=
  predictPath_congr sqrtf sources n b1 b2 hp hv hm hf

/-- Witness for C7: two candidates agreeing on the dynamical fields but
differing in previous position, previous force, radius and color, previewed
for three steps against the empty registry. -/
theorem claim7_predictor_purity_witness :
    predictPath (fun q => q) []
      ⟨((1:ℚ), (2:ℚ)), ((9:ℚ), (9:ℚ)), ((0:ℚ), (0:ℚ)), ((7:ℚ), (7:ℚ)), ((3:ℚ), (4:ℚ)),
        5, 1, ⟨0, 0, 0, 0⟩⟩ 3
      = predictPath (fun q => q) []
          ⟨((1:ℚ), (2:ℚ)), ((0:ℚ), (0:ℚ)), ((0:ℚ), (0:ℚ)), ((8:ℚ), (8:ℚ)), ((3:ℚ), (4:ℚ)),
            6, 1, ⟨1, 1, 1, 1⟩⟩ 3 :=
  claim7_predictor_purity (fun q => q) [] 3 _ _ rfl rfl rfl rfl

/-- C6: a pure preview frame (button held down, neither pressed nor released
this frame) leaves the registry, the stored candidate and the press position
untouched and only overwrites the preview path, which is the fixed-length
sequence of PATH_POINTS positions obtained by repeatedly advancing a local
copy of the candidate (velocity set from the current drag vector) with the
force model and the integrator, against the registry bodies held fixed. -/
theorem claim6_predictor_frame (sqrtf : ℚ → ℚ) (inp : SpawnInput) (st : SimState)
    (hp : inp.pressed = false) (hr : inp.released = false) (hd : inp.down = true) :
    (spawn_body sqrtf inp st).bodies = st.bodies ∧
    (spawn_body sqrtf inp st).spawned_body = st.spawned_body ∧
    (spawn_body sqrtf inp st).mouse_pressed_pos = st.mouse_pressed_pos ∧
    (spawn_body sqrtf inp st).spawn_path
      = predictPath sqrtf st.bodies
          { st.spawned_body with
            velocity := Vector2Subtract inp.mousePos st.mouse_pressed_pos } PATH_POINTS ∧
    (spawn_body sqrtf inp st).spawn_path.length = PATH_POINTS := by
  simp [spawn_body, hp, hr, hd, predictPath_length]

/-- Witness for C6: a drag frame over a one-body registry. -/
theorem claim6_predictor_frame_witness :
    (spawn_body (fun q => q) ⟨false, false, true, ((3:ℚ), (4:ℚ)), ⟨1, 2, 3, 255⟩, 0, 0⟩
        ⟨[create_body ((9:ℚ), (9:ℚ)) ((0:ℚ), (0:ℚ)) 1 1 ⟨0, 0, 0, 0⟩], ((0:ℚ), (0:ℚ)),
          create_body ((1:ℚ), (1:ℚ)) ((0:ℚ), (0:ℚ)) 1 1 ⟨0, 0, 0, 0⟩, [], true⟩).bodies
      = [create_body ((9:ℚ), (9:ℚ)) ((0:ℚ), (0:ℚ)) 1 1 ⟨0, 0, 0, 0⟩] ∧
    (spawn_body (fun q => q) ⟨false, false, true, ((3:ℚ), (4:ℚ)), ⟨1, 2, 3, 255⟩, 0, 0⟩
        ⟨[create_body ((9:ℚ), (9:ℚ)) ((0:ℚ), (0:ℚ)) 1 1 ⟨0, 0, 0, 0⟩], ((0:ℚ), (0:ℚ)),
          create_body ((1:ℚ), (1:ℚ)) ((0:ℚ), (0:ℚ)) 1 1 ⟨0, 0, 0, 0⟩, [], true⟩).spawn_path.length
      = PATH_POINTS := by
  refine ⟨?_, ?_⟩
  · exact (claim6_predictor_frame (fun q => q)
      ⟨false, false, true, ((3:ℚ), (4:ℚ)), ⟨1, 2, 3, 255⟩, 0, 0⟩
      ⟨[create_body ((9:ℚ), (9:ℚ)) ((0:ℚ), (0:ℚ)) 1 1 ⟨0, 0, 0, 0⟩], ((0:ℚ), (0:ℚ)),
        create_body ((1:ℚ), (1:ℚ)) ((0:ℚ), (0:ℚ)) 1 1 ⟨0, 0, 0, 0⟩, [], true⟩
      rfl rfl rfl).1
  · exact (claim6_predictor_frame (fun q => q)
      ⟨false, false, true, ((3:ℚ), (4:ℚ)), ⟨1, 2, 3, 255⟩, 0, 0⟩
      ⟨[create_body ((9:ℚ), (9:ℚ)) ((0:ℚ), (0:ℚ)) 1 1 ⟨0, 0, 0, 0⟩], ((0:ℚ), (0:ℚ)),
        create_body ((1:ℚ), (1:ℚ)) ((0:ℚ), (0:ℚ)) 1 1 ⟨0, 0, 0, 0⟩, [], true⟩
      rfl rfl rfl).2.2.2.2

theorem spawn_body_drag (sqrtf : ℚ → ℚ) (inp : SpawnInput) (st : SimState)
    (hp : inp.pressed = false) (hr : inp.released = false) :
    (spawn_body sqrtf inp st).bodies = st.bodies ∧
    (spawn_body sqrtf inp st).spawned_body = st.spawned_body ∧
    (spawn_body sqrtf inp st).mouse_pressed_pos = st.mouse_pressed_pos := by
  cases hdw : inp.down <;> simp [spawn_body, hp, hr, hdw]

theorem spawn_body_drags (sqrtf : ℚ → ℚ) :
    ∀ (ds : List SpawnInput), (∀ i ∈ ds, i.pressed = false ∧ i.released = false) →
    ∀ st : SimState,
      (ds.foldl (fun s i => spawn_body sqrtf i s) st).bodies = st.bodies ∧
      (ds.foldl (fun s i => spawn_body sqrtf i s) st).spawned_body = st.spawned_body ∧
      (ds.foldl (fun s i => spawn_body sqrtf i s) st).mouse_pressed_pos
        = st.mouse_pressed_pos := by
  intro ds
  induction ds with
  | nil => intro _ st; exact ⟨rfl, rfl, rfl⟩
  | cons d ds ih =>
    intro h st
    obtain ⟨h1, h2, h3⟩ := spawn_body_drag sqrtf d st (h d (by simp)).1 (h d (by simp)).2
    obtain ⟨g1, g2, g3⟩ := ih (fun i hi => h i (by simp [hi])) (spawn_body sqrtf d st)
    simp only [List.foldl_cons]
    exact ⟨g1.trans h1, g2.trans h2, g3.trans h3⟩

theorem spawn_body_press (sqrtf : ℚ → ℚ) (inp : SpawnInput) (st : SimState)
    (hp : inp.pressed = true) (hr : inp.released = false) :
    (spawn_body sqrtf inp st).bodies = st.bodies ∧
    (spawn_body sqrtf inp st).mouse_pressed_pos = inp.mousePos ∧
    (spawn_body sqrtf inp st).spawned_body
      = create_body inp.mousePos (Vector2Subtract inp.mousePos inp.mousePos)
          (max (inp.u1 * 20) 1) (max (inp.u2 * 60) 20) inp.col := by
  cases hdw : inp.down <;> simp [spawn_body, hp, hr, hdw]

theorem spawn_body_release (sqrtf : ℚ → ℚ) (inp : SpawnInput) (st : SimState)
    (hp : inp.pressed = false) (hr : inp.released = true) :
    (spawn_body sqrtf inp st).bodies
      = st.bodies ++
        [{ st.spawned_body with
           velocity := Vector2Subtract inp.mousePos st.mouse_pressed_pos }] := by
  cases hdw : inp.down <;> simp [spawn_body, addBody, hp, hr, hdw]

/-- C10: a completed spawn gesture (press frame, any number of drag frames,
release frame) appends to the registry exactly the body built by create_body
at press time, with velocity replaced by the vector from the press position
to the release position; that body carries zero accumulated and previous
force and its previous position equals its creation position, however many
preview runs the drag frames performed, because the preview only ever
advances a local copy of the stored candidate. -/
theorem claim10_spawn_commit (sqrtf : ℚ → ℚ) (press : SpawnInput) (drags : List SpawnInput)
    (release : SpawnInput) (st : SimState)
    (hp1 : press.pressed = true) (hp2 : press.released = false)
    (hd : ∀ i ∈ drags, i.pressed = false ∧ i.released = false)
    (hr1 : release.pressed = false) (hr2 : release.released = true) :
    (spawn_body sqrtf release
        (drags.foldl (fun s i => spawn_body sqrtf i s) (spawn_body sqrtf press st))).bodies
      = st.bodies ++
        [{ create_body press.mousePos (Vector2Subtract press.mousePos press.mousePos)
             (max (press.u1 * 20) 1) (max (press.u2 * 60) 20) press.col with
           velocity := Vector2Subtract release.mousePos press.mousePos }] ∧
    ({ create_body press.mousePos (Vector2Subtract press.mousePos press.mousePos)
         (max (press.u1 * 20) 1) (max (press.u2 * 60) 20) press.col with
       velocity := Vector2Subtract release.mousePos press.mousePos }).force = (0 : Vec2) ∧
    ({ create_body press.mousePos (Vector2Subtract press.mousePos press.mousePos)
         (max (press.u1 * 20) 1) (max (press.u2 * 60) 20) press.col with
       velocity := Vector2Subtract release.mousePos press.mousePos }).prev_force = (0 : Vec2) ∧
    ({ create_body press.mousePos (Vector2Subtract press.mousePos press.mousePos)
         (max (press.u1 * 20) 1) (max (press.u2 * 60) 20) press.col with
       velocity := Vector2Subtract release.mousePos press.mousePos }).prev_position
      = press.mousePos ∧
    ({ create_body press.mousePos (Vector2Subtract press.mousePos press.mousePos)
         (max (press.u1 * 20) 1) (max (press.u2 * 60) 20) press.col with
       velocity := Vector2Subtract release.mousePos press.mousePos }).position
      = press.mousePos := by
  obtain ⟨pb, pm, ps⟩ := spawn_body_press sqrtf press st hp1 hp2
  obtain ⟨db, dsb, dm⟩ :=
    spawn_body_drags sqrtf drags hd (spawn_body sqrtf press st)
  refine ⟨?_, rfl, rfl, rfl, rfl⟩
  rw [spawn_body_release sqrtf release _ hr1 hr2, db, dsb, dm, pb, pm, ps]

/-- Witness for C10: a press at one point and an immediate release at another,
with no drag frames, on an empty registry. -/
theorem claim10_spawn_commit_witness :
    (spawn_body (fun q => q) ⟨false, true, false, ((5:ℚ), (6:ℚ)), ⟨0, 0, 0, 0⟩, 0, 0⟩
        (([] : List SpawnInput).foldl (fun s i => spawn_body (fun q => q) i s)
          (spawn_body (fun q => q) ⟨true, false, false, ((1:ℚ), (2:ℚ)), ⟨7, 7, 7, 255⟩, 0, 0⟩
            ⟨[], ((0:ℚ), (0:ℚ)), create_body ((0:ℚ), (0:ℚ)) ((0:ℚ), (0:ℚ)) 1 1 ⟨0, 0, 0, 0⟩,
              [], false⟩))).bodies
      = [] ++
        [{ create_body ((1:ℚ), (2:ℚ)) (Vector2Subtract ((1:ℚ), (2:ℚ)) ((1:ℚ), (2:ℚ)))
             (max ((0:ℚ) * 20) 1) (max ((0:ℚ) * 60) 20) ⟨7, 7, 7, 255⟩ with
           velocity := Vector2Subtract ((5:ℚ), (6:ℚ)) ((1:ℚ), (2:ℚ)) }] :=
  (claim10_spawn_commit (fun q => q) ⟨true, false, false, ((1:ℚ), (2:ℚ)), ⟨7, 7, 7, 255⟩, 0, 0⟩
    [] ⟨false, true, false, ((5:ℚ), (6:ℚ)), ⟨0, 0, 0, 0⟩, 0, 0⟩
    ⟨[], ((0:ℚ), (0:ℚ)), create_body ((0:ℚ), (0:ℚ)) ((0:ℚ), (0:ℚ)) 1 1 ⟨0, 0, 0, 0⟩, [], false⟩
    rfl rfl (by simp) rfl rfl).1

theorem foldl_vadd_eq_sum (g : Body → Vec2) :
    ∀ (l : List Body) (a : Vec2),
      l.foldl (fun acc o => Vector2Add acc (g o)) a = a + (l.map g).sum := by
  intro l
  induction l with
  | nil => intro a; simp
  | cons x xs ih =>
    intro a
    simp only [List.foldl_cons]
    rw [ih (Vector2Add a (g x)), Vector2Add_eq, List.map_cons, List.sum_cons, add_assoc]

theorem phase1_pointwise (b : Body) (dt : ℚ) :
    { toSpec b with
      prev_position := (toSpec b).position
      position := (toSpec b).position + dt • (toSpec b).velocity
        + ((1/2) * (toSpec b).inv_mass * dt ^ 2) • (toSpec b).prev_force }
    = integrate_pos
        { b with prev_position := b.position, prev_force := b.force, force := (0 : Vec2) }
        dt := by
  obtain ⟨⟨px, py⟩, pp, ⟨fx, fy⟩, pf, ⟨vx, vy⟩, rad, m, col⟩ := b
  simp only [toSpec, integrate_pos, Vector2Add, Vector2Scale, Prod.smul_mk, smul_eq_mul,
    Prod.mk_add_mk, Body.mk.injEq, Prod.mk.injEq]
  refine ⟨⟨by ring, by ring⟩, trivial, trivial, trivial, trivial, trivial, trivial, trivial⟩

theorem phase3_pointwise (b : Body) (dt : ℚ) :
    { b with
      velocity := b.velocity + ((1/2) * b.inv_mass * dt) • (b.prev_force + b.force)
      prev_force := b.force
      force := (0 : Vec2) }
    = toSpec (integrate_vel b dt) := by
  obtain ⟨p, pp, ⟨fx, fy⟩, ⟨pfx, pfy⟩, ⟨vx, vy⟩, rad, m, col⟩ := b
  simp only [toSpec, integrate_vel, Vector2Add, Vector2Scale, Prod.smul_mk, smul_eq_mul,
    Prod.mk_add_mk, Body.mk.injEq, Prod.mk.injEq]
  refine ⟨trivial, trivial, trivial, trivial, ⟨by ring, by ring⟩, trivial, trivial, trivial⟩

theorem verlet_phase1_list (bs : List Body) (dt : ℚ) :
    ((bs.map toSpec).map fun b =>
      { b with
        prev_position := b.position
        position := b.position + dt • b.velocity + ((1/2) * b.inv_mass * dt ^ 2) • b.prev_force })
    = ((bs.map fun b =>
        { b with prev_position := b.position, prev_force := b.force, force := (0 : Vec2) }).map
          fun b => integrate_pos b dt) := by
  induction bs with
  | nil => rfl
  | cons b rest ih =>
    simp only [List.map_cons]
    rw [ih, phase1_pointwise b dt]

theorem phase1_force_zero (bs : List Body) (dt : ℚ) :
    ∀ b ∈ ((bs.map fun b =>
        { b with prev_position := b.position, prev_force := b.force, force := (0 : Vec2) }).map
          fun b => integrate_pos b dt), b.force = (0 : Vec2) := by
  intro b hb
  simp only [List.mem_map] at hb
  obtain ⟨x, ⟨y, _, rfl⟩, rfl⟩ := hb
  rfl

theorem forcePass_eq (sqrtf : ℚ → ℚ) (all : List Body) (dt : ℚ) :
    ∀ (i : ℕ) (todo : List Body), (∀ b ∈ todo, b.force = (0 : Vec2)) →
      specForcePass sqrtf all i todo = applyFrom sqrtf all dt i todo := by
  intro i todo
  induction todo generalizing i with
  | nil => intro _; rfl
  | cons b rest ih =>
    intro h
    have hb : b.force = (0 : Vec2) := h b (by simp)
    simp only [specForcePass, applyFrom, apply_forces]
    rw [foldl_vadd_eq_sum, hb, zero_add, ih (i + 1) (fun x hx => h x (by simp [hx]))]

theorem verlet_phase3_list (dt : ℚ) :
    ∀ (l : List Body),
      (l.map fun b =>
        { b with
          velocity := b.velocity + ((1/2) * b.inv_mass * dt) • (b.prev_force + b.force)
          prev_force := b.force
          force := (0 : Vec2) })
      = (l.map fun b => integrate_vel b dt).map toSpec := by
  intro l
  induction l with
  | nil => rfl
  | cons b rest ih =>
    simp only [List.map_cons]
    rw [ih, phase3_pointwise b dt]

/-- C1: the update function implements the two-phase velocity Verlet step of
the specification exactly, under the bookkeeping correspondence toSpec: the
specification has each step end by rotating the freshly accumulated force
into previousForce and clearing accumulatedForce, while the code performs the
identical rotation at the top of the next update call; reading both states
through that pending rotation, one update call coincides with one
specification step on every body: previousPosition records the position, the
position gains velocity times dt plus half of previousForce times inverseMass
times dt squared, forces are then recomputed at the new positions of all
bodies, and the velocity gains half of the sum of previous and newly
accumulated force times inverseMass times dt. -/
theorem claim1_velocity_verlet (sqrtf : ℚ → ℚ) (bs : List Body) (dt : ℚ) :
    verletSpecStep sqrtf (bs.map toSpec) dt = (update sqrtf bs dt).map toSpec := by
  simp only [verletSpecStep, update]
  rw [verlet_phase1_list bs dt,
    forcePass_eq sqrtf _ dt 0 _ (phase1_force_zero bs dt),
    verlet_phase3_list dt]

theorem vec_sum_map_neg (l : List Body) (g : Body → Vec2) :
    (l.map fun o => -(g o)).sum = -((l.map g).sum) := by
  induction l with
  | nil => simp
  | cons x xs ih => simp [ih, neg_add, add_comm]

theorem map_map_eq_of {α : Type} (g : Body → Body) (h h2 : Body → α)
    (hh : ∀ b, h (g b) = h2 b) (l : List Body) : (l.map g).map h = l.map h2 := by
  rw [List.map_map]
  exact List.map_congr_left fun b _ => hh b

theorem forall_mem_of_map_eq {α : Type} (P : α → Prop) (h : Body → α) {l1 l2 : List Body}
    (he : l1.map h = l2.map h) (hp : ∀ b ∈ l2, P (h b)) : ∀ b ∈ l1, P (h b) := by
  intro b hb
  have hmem : h b ∈ l1.map h := List.mem_map_of_mem h hb
  rw [he] at hmem
  obtain ⟨x, hx, hxe⟩ := List.mem_map.1 hmem
  rw [← hxe]
  exact hp x hx

theorem momentum_cons (b : Body) (l : List Body) :
    momentum (b :: l) = (1 / b.inv_mass) • b.velocity + momentum l := by
  simp [momentum]

theorem sumForce_cons (b : Body) (l : List Body) :
    sumForce (b :: l) = b.force + sumForce l := by
  simp [sumForce]

theorem sumPrevForce_cons (b : Body) (l : List Body) :
    sumPrevForce (b :: l) = b.prev_force + sumPrevForce l := by
  simp [sumPrevForce]

theorem apply_forces_force (sqrtf : ℚ → ℚ) (b : Body) (others : List Body) (dt : ℚ) :
    (apply_forces sqrtf b others dt).force = b.force + total_force sqrtf b others := by
  simp [apply_forces, foldl_vadd_eq_sum, total_force]

theorem applyFrom_map {α : Type} (sqrtf : ℚ → ℚ) (all : List Body) (dt : ℚ) (h : Body → α)
    (hh : ∀ b others, h (apply_forces sqrtf b others dt) = h b) :
    ∀ (i : ℕ) (todo : List Body), (applyFrom sqrtf all dt i todo).map h = todo.map h := by
  intro i todo
  induction todo generalizing i with
  | nil => rfl
  | cons b rest ih => simp only [applyFrom, List.map_cons, hh, ih]

theorem applyFrom_sumForce (sqrtf : ℚ → ℚ) (all : List Body) (dt : ℚ) :
    ∀ (i : ℕ) (todo : List Body),
      sumForce (applyFrom sqrtf all dt i todo) = sumForce todo + pairAux sqrtf all i todo := by
  intro i todo
  induction todo generalizing i with
  | nil => simp [sumForce, applyFrom, pairAux]
  | cons b rest ih =>
    simp only [applyFrom, pairAux]
    rw [sumForce_cons, sumForce_cons, ih (i + 1), apply_forces_force]
    abel

theorem pairAux_shift (sqrtf : ℚ → ℚ) (a : Body) (t : List Body) :
    ∀ (rest : List Body) (i : ℕ),
      pairAux sqrtf (a :: t) (i + 1) rest
        = (rest.map fun b => compute_gravitational_force sqrtf b a).sum
            + pairAux sqrtf t i rest := by
  intro rest
  induction rest with
  | nil => intro i; simp [pairAux]
  | cons b rs ih =>
    intro i
    simp only [pairAux, List.map_cons, List.sum_cons, List.eraseIdx_cons_succ]
    rw [ih (i + 1)]
    rw [show total_force sqrtf b (a :: t.eraseIdx i)
        = compute_gravitational_force sqrtf b a + total_force sqrtf b (t.eraseIdx i) from by
      simp [total_force]]
    abel

theorem pairAux_self (sqrtf : ℚ → ℚ) : ∀ (l : List Body), pairAux sqrtf l 0 l = 0 := by
  intro l
  induction l with
  | nil => rfl
  | cons a t ih =>
    simp only [pairAux, List.eraseIdx_cons_zero]
    rw [pairAux_shift sqrtf a t t 0, ih]
    rw [show (t.map fun b => compute_gravitational_force sqrtf b a)
        = t.map fun b => -(compute_gravitational_force sqrtf a b) from
      List.map_congr_left fun b _ => gravitational_force_antisymm sqrtf b a]
    rw [vec_sum_map_neg]
    simp only [total_force]
    abel

theorem sumForce_eq_zero : ∀ (l : List Body), (∀ b ∈ l, b.force = (0 : Vec2)) →
    sumForce l = 0 := by
  intro l
  induction l with
  | nil => intro _; rfl
  | cons b rest ih =>
    intro h
    rw [sumForce_cons, h b (by simp), ih (fun x hx => h x (by simp [hx])), add_zero]

theorem applyFrom_sumForce_zero (sqrtf : ℚ → ℚ) (l : List Body) (dt : ℚ)
    (h : ∀ b ∈ l, b.force = (0 : Vec2)) :
    sumForce (applyFrom sqrtf l dt 0 l) = 0 := by
  rw [applyFrom_sumForce sqrtf l dt 0 l, pairAux_self sqrtf l, sumForce_eq_zero l h, add_zero]

theorem applyFrom_momentum (sqrtf : ℚ → ℚ) (l : List Body) (dt : ℚ) :
    momentum (applyFrom sqrtf l dt 0 l) = momentum l := by
  simp only [momentum]
  rw [applyFrom_map sqrtf l dt (fun b => (1 / b.inv_mass) • b.velocity)
    (fun b others => rfl) 0 l]

theorem applyFrom_sumPrevForce (sqrtf : ℚ → ℚ) (l : List Body) (dt : ℚ) :
    sumPrevForce (applyFrom sqrtf l dt 0 l) = sumPrevForce l := by
  simp only [sumPrevForce]
  rw [applyFrom_map sqrtf l dt (fun b => b.prev_force) (fun b others => rfl) 0 l]

theorem applyFrom_map_inv_mass (sqrtf : ℚ → ℚ) (l : List Body) (dt : ℚ) :
    (applyFrom sqrtf l dt 0 l).map (fun b => b.inv_mass) = l.map fun b => b.inv_mass :=
  applyFrom_map sqrtf l dt (fun b => b.inv_mass) (fun b others => rfl) 0 l

theorem phase1_map_inv_mass (bs : List Body) (dt : ℚ) :
    ((bs.map fun b =>
        { b with prev_position := b.position, prev_force := b.force, force := (0 : Vec2) }).map
          fun b => integrate_pos b dt).map (fun b => b.inv_mass)
      = bs.map fun b => b.inv_mass := by
  rw [map_map_eq_of (fun b => integrate_pos b dt) (fun b => b.inv_mass) (fun b => b.inv_mass)
      (fun b => rfl),
    map_map_eq_of (fun b =>
        { b with prev_position := b.position, prev_force := b.force, force := (0 : Vec2) })
      (fun b => b.inv_mass) (fun b => b.inv_mass) (fun b => rfl)]

theorem phase1_momentum (bs : List Body) (dt : ℚ) :
    momentum ((bs.map fun b =>
        { b with prev_position := b.position, prev_force := b.force, force := (0 : Vec2) }).map
          fun b => integrate_pos b dt)
      = momentum bs := by
  simp only [momentum]
  rw [map_map_eq_of (fun b => integrate_pos b dt) (fun b => (1 / b.inv_mass) • b.velocity)
      (fun b => (1 / b.inv_mass) • b.velocity) (fun b => rfl),
    map_map_eq_of (fun b =>
        { b with prev_position := b.position, prev_force := b.force, force := (0 : Vec2) })
      (fun b => (1 / b.inv_mass) • b.velocity) (fun b => (1 / b.inv_mass) • b.velocity)
      (fun b => rfl)]

theorem phase1_sumPrevForce (bs : List Body) (dt : ℚ) :
    sumPrevForce ((bs.map fun b =>
        { b with prev_position := b.position, prev_force := b.force, force := (0 : Vec2) }).map
          fun b => integrate_pos b dt)
      = sumForce bs := by
  simp only [sumPrevForce, sumForce]
  rw [map_map_eq_of (fun b => integrate_pos b dt) (fun b => b.prev_force)
      (fun b => b.prev_force) (fun b => rfl),
    map_map_eq_of (fun b =>
        { b with prev_position := b.position, prev_force := b.force, force := (0 : Vec2) })
      (fun b => b.prev_force) (fun b => b.force) (fun b => rfl)]

theorem phase1_inv_mass_mem (bs : List Body) (dt : ℚ) (hm : ∀ b ∈ bs, b.inv_mass ≠ 0) :
    ∀ b ∈ ((bs.map fun b =>
        { b with prev_position := b.position, prev_force := b.force, force := (0 : Vec2) }).map
          fun b => integrate_pos b dt), b.inv_mass ≠ 0 :=
  forall_mem_of_map_eq (fun q => q ≠ 0) (fun b => b.inv_mass) (phase1_map_inv_mass bs dt) hm

theorem momentum_elt_integrate_vel (x : Body) (dt : ℚ) (hx : x.inv_mass ≠ 0) :
    (1 / (integrate_vel x dt).inv_mass) • (integrate_vel x dt).velocity
      = (1 / x.inv_mass) • x.velocity + (dt * (1/2)) • (x.prev_force + x.force) := by
  simp only [integrate_vel, Vector2Add_eq, Vector2Scale_eq]
  rw [smul_add, smul_smul]
  congr 2
  field_simp

theorem momentum_integrate_vel (dt : ℚ) :
    ∀ (l : List Body), (∀ b ∈ l, b.inv_mass ≠ 0) →
      momentum (l.map fun b => integrate_vel b dt)
        = momentum l + (dt * (1/2)) • (sumPrevForce l + sumForce l) := by
  intro l
  induction l with
  | nil => intro _; simp [momentum, sumPrevForce, sumForce]
  | cons x xs ih =>
    intro hm
    have hx : x.inv_mass ≠ 0 := hm x (by simp)
    have hxs := ih fun b hb => hm b (by simp [hb])
    rw [List.map_cons, momentum_cons, momentum_elt_integrate_vel x dt hx, hxs,
      momentum_cons, sumPrevForce_cons, sumForce_cons]
    simp only [smul_add]
    abel

theorem momentum_stage2 (sqrtf : ℚ → ℚ) (l : List Body) (dt : ℚ)
    (hmem : ∀ b ∈ l, b.inv_mass ≠ 0) (hf0 : ∀ b ∈ l, b.force = (0 : Vec2)) :
    momentum ((applyFrom sqrtf l dt 0 l).map fun b => integrate_vel b dt)
      = momentum l + (dt * (1/2)) • sumPrevForce l := by
  have hmem2 : ∀ b ∈ applyFrom sqrtf l dt 0 l, b.inv_mass ≠ 0 :=
    forall_mem_of_map_eq (fun q => q ≠ 0) (fun b => b.inv_mass)
      (applyFrom_map_inv_mass sqrtf l dt) hmem
  rw [momentum_integrate_vel dt _ hmem2, applyFrom_momentum sqrtf l dt,
    applyFrom_sumPrevForce sqrtf l dt, applyFrom_sumForce_zero sqrtf l dt hf0, add_zero]

theorem momentum_update (sqrtf : ℚ → ℚ) (bs : List Body) (dt : ℚ)
    (hm : ∀ b ∈ bs, b.inv_mass ≠ 0) (hf : sumForce bs = 0) :
    momentum (update sqrtf bs dt) = momentum bs := by
  simp only [update]
  rw [momentum_stage2 sqrtf _ dt (phase1_inv_mass_mem bs dt hm) (phase1_force_zero bs dt),
    phase1_momentum bs dt, phase1_sumPrevForce bs dt, hf, smul_zero, add_zero]

theorem sumForce_map_integrate_vel (l : List Body) (dt : ℚ) :
    sumForce (l.map fun b => integrate_vel b dt) = sumForce l := by
  simp only [sumForce]
  rw [map_map_eq_of (fun b => integrate_vel b dt) (fun b => b.force) (fun b => b.force)
    (fun b => rfl)]

theorem sumForce_update (sqrtf : ℚ → ℚ) (bs : List Body) (dt : ℚ) :
    sumForce (update sqrtf bs dt) = 0 := by
  simp only [update]
  rw [sumForce_map_integrate_vel, applyFrom_sumForce_zero sqrtf _ dt (phase1_force_zero bs dt)]

theorem update_map_inv_mass (sqrtf : ℚ → ℚ) (bs : List Body) (dt : ℚ) :
    (update sqrtf bs dt).map (fun b => b.inv_mass) = bs.map fun b => b.inv_mass := by
  simp only [update]
  rw [map_map_eq_of (fun b => integrate_vel b dt) (fun b => b.inv_mass) (fun b => b.inv_mass)
      (fun b => rfl),
    applyFrom_map_inv_mass sqrtf _ dt, phase1_map_inv_mass bs dt]

theorem update_inv_mass_mem (sqrtf : ℚ → ℚ) (bs : List Body) (dt : ℚ)
    (hm : ∀ b ∈ bs, b.inv_mass ≠ 0) : ∀ b ∈ update sqrtf bs dt, b.inv_mass ≠ 0 :=
  forall_mem_of_map_eq (fun q => q ≠ 0) (fun b => b.inv_mass)
    (update_map_inv_mass sqrtf bs dt) hm

theorem update_iter_invariant (sqrtf : ℚ → ℚ) (bs : List Body) (dt : ℚ)
    (hm : ∀ b ∈ bs, b.inv_mass ≠ 0) (hf : sumForce bs = 0) :
    ∀ n : ℕ,
      (∀ b ∈ (fun l => update sqrtf l dt)^[n] bs, b.inv_mass ≠ 0) ∧
      sumForce ((fun l => update sqrtf l dt)^[n] bs) = 0 ∧
      momentum ((fun l => update sqrtf l dt)^[n] bs) = momentum bs := by
  intro n
  induction n with
  | zero => exact ⟨hm, hf, rfl⟩
  | succ n ih =>
    obtain ⟨i1, i2, i3⟩ := ih
    rw [Function.iterate_succ_apply']
    exact ⟨update_inv_mass_mem sqrtf _ dt i1, sumForce_update sqrtf _ dt,
      (momentum_update sqrtf _ dt i1 i2).trans i3⟩

/-- C9: for a registry whose bodies have nonzero inverse mass and whose
carried accumulated forces sum to zero (as holds for freshly created bodies,
whose forces are zero, and is reestablished by every step), the total
momentum, the sum over the bodies of mass times velocity, is exactly
preserved by every update step and hence across any number of scheduler
steps: no external force enters, and the pairwise gravitational forces cancel
exactly by symmetry. -/
theorem claim9_momentum_conservation (sqrtf : ℚ → ℚ) (bs : List Body) (dt : ℚ)
    (hm : ∀ b ∈ bs, b.inv_mass ≠ 0) (hf : sumForce bs = 0) (n : ℕ) :
    momentum ((fun l => update sqrtf l dt)^[n] bs) = momentum bs :=
  (update_iter_invariant sqrtf bs dt hm hf n).2.2

/-- Witness for C9: one body with unit inverse mass and zero carried force,
stepped twice. -/
theorem claim9_momentum_conservation_witness :
    momentum ((fun l => update (fun q => q) l 1)^[2]
        [⟨((0:ℚ), (0:ℚ)), ((0:ℚ), (0:ℚ)), ((0:ℚ), (0:ℚ)), ((0:ℚ), (0:ℚ)), ((1:ℚ), (0:ℚ)),
          1, 1, ⟨0, 0, 0, 0⟩⟩])
      = momentum
          [⟨((0:ℚ), (0:ℚ)), ((0:ℚ), (0:ℚ)), ((0:ℚ), (0:ℚ)), ((0:ℚ), (0:ℚ)), ((1:ℚ), (0:ℚ)),
            1, 1, ⟨0, 0, 0, 0⟩⟩] :=
  claim9_momentum_conservation (fun q => q)
    [⟨((0:ℚ), (0:ℚ)), ((0:ℚ), (0:ℚ)), ((0:ℚ), (0:ℚ)), ((0:ℚ), (0:ℚ)), ((1:ℚ), (0:ℚ)),
      1, 1, ⟨0, 0, 0, 0⟩⟩] 1 (by decide) (by simp [sumForce]) 2

end Gravity
